import Mathlib

/-!
Verification of the ESTATEhub fungible-token contract (`src/ft/src/lib.rs`).

The contract is a thin facade over the standard fungible-token ledger:
`new` / `new_default_meta` / `ft_metadata` and the two hooks are in the
source file, while the ledger core (`ft_transfer`, `ft_transfer_call`
resolution, storage registration) is pulled in by the
`impl_fungible_token_core!` / `impl_fungible_token_storage!` macro
invocations and is therefore modelled here from the specification.

Machine integers (`u128` balances) are embedded as `Nat` with an explicit
bound `U128_MAX`; every fallible entry point returns `Except FTError`,
mirroring the platform's all-or-nothing rollback of a panicking call.
-/

namespace EstateHub

abbrev AccountId := String

/-- Maximum representable `u128` balance, `2^128 - 1`. -/
def U128_MAX : Nat := 2 ^ 128 - 1

/-- The error taxonomy of the contract (spec §7). -/
inductive FTError where
  | AlreadyInitialized
  | InvalidMetadata
  | Overflow
  | InsufficientBalance
  | AccountNotRegistered
  | AlreadyRegistered
  | ZeroAmount
  | SelfTransfer
  | DepositRequired
  | InsufficientStorageDeposit
  | InsufficientStorageBalance
  | StillHasBalance
deriving DecidableEq, Repr

/-! ### The balance ledger as an association list -/

/-- Balance of `a` in the ledger, `none` when `a` is unregistered. -/
def lookupAcc : List (AccountId × Nat) → AccountId → Option Nat
  | [], _ => none
  | (k, v) :: rest, a => if k = a then some v else lookupAcc rest a

/-- Set the balance of `a` to `v` (replace if present, append otherwise). -/
def insertAcc : List (AccountId × Nat) → AccountId → Nat → List (AccountId × Nat)
  | [], a, v => [(a, v)]
  | (k, w) :: rest, a, v =>
      if k = a then (a, v) :: rest else (k, w) :: insertAcc rest a v

/-- Delete the record of `a` from the ledger. -/
def removeAcc : List (AccountId × Nat) → AccountId → List (AccountId × Nat)
  | [], _ => []
  | (k, w) :: rest, a => if k = a then rest else (k, w) :: removeAcc rest a

/-- Sum of all balances in the ledger. -/
def sumBalances (l : List (AccountId × Nat)) : Nat :=
  (l.map Prod.snd).sum

/-- The ledger's keys are pairwise distinct. -/
def NodupKeys (l : List (AccountId × Nat)) : Prop :=
  (l.map Prod.fst).Nodup

/-! ### Data model -/

/-- Events emitted by successful mutating calls (spec §6); the
`AccountClosed` entry records the `on_account_closed` hook of
`src/ft/src/lib.rs` lines 82-84 firing. -/
inductive FtEvent where
  | Mint (owner_id : AccountId) (amount : Nat) (memo : Option String)
  | Transfer (old_owner_id new_owner_id : AccountId) (amount : Nat) (memo : Option String)
  | Burn (owner_id : AccountId) (amount : Nat) (memo : Option String)
  | AccountClosed (account_id : AccountId) (balance : Nat)
deriving DecidableEq, Repr

/-- The fungible-token ledger state held in the `token` field of the
contract: the account-to-balance map and the total supply. -/
structure FungibleToken where
  accounts : List (AccountId × Nat)
  total_supply : Nat
deriving DecidableEq, Repr

/-- The metadata record (spec §3): spec-version string, display name,
ticker symbol, optional icon, optional external reference + 32-byte hash,
decimal count. Bytes of the hash are embedded as `Nat`s. -/
structure FungibleTokenMetadata where
  spec : String
  name : String
  symbol : String
  icon : Option String
  reference : Option String
  reference_hash : Option (List Nat)
  decimals : Nat
deriving DecidableEq, Repr

/-- The metadata spec-version string required by validation. -/
def FT_METADATA_SPEC : String := "ft-1.0.0"

/-- The full contract state of `src/ft/src/lib.rs` lines 29-32: the token
ledger plus the lazily stored metadata record (embedded as a plain field;
`new` always stores `Some`, so `ft_metadata`'s `unwrap` is total here). -/
structure Contract where
  token : FungibleToken
  metadata : FungibleTokenMetadata
deriving DecidableEq, Repr

/-! ### Operations

The ledger core and storage operations are invoked through
`near_contract_standards::impl_fungible_token_core!` /
`impl_fungible_token_storage!` (`src/ft/src/lib.rs` lines 91-92); their
bodies are not part of this repository's sources, so they are modelled
from the specification (§4.1-§4.5).  A panicking call rolls back all of
its state mutations on this platform (spec §7), so every fallible
operation returns `Except FTError`, the error carrying no state. -/

/-- Modelled from the spec (§4.6, validation rules of the metadata record;
the `FungibleTokenMetadata::assert_valid` implementation is not under
`src/`): the spec-version string must match, `reference` and
`reference_hash` must be both present or both absent, and a present hash
must be exactly 32 bytes. -/
def FungibleTokenMetadata.assert_valid (md : FungibleTokenMetadata) : Bool :=
  md.spec == FT_METADATA_SPEC &&
  md.reference.isSome == md.reference_hash.isSome &&
  (match md.reference_hash with
   | some h => h.length == 32
   | none => true)

/-- Modelled from the spec (§4.1 `deposit`; the `FungibleToken` ledger
implementation is not under `src/`): credits `amount` to a registered
account and raises the total supply in lockstep, failing with `Overflow`
if the new balance or the new total supply would exceed `2^128 - 1`. -/
def internal_deposit (tok : FungibleToken) (account_id : AccountId) (amount : Nat) :
    Except FTError FungibleToken :=
  match lookupAcc tok.accounts account_id with
  | none => .error .AccountNotRegistered
  | some balance =>
      if balance + amount > U128_MAX then .error .Overflow
      else if tok.total_supply + amount > U128_MAX then .error .Overflow
      else .ok ⟨insertAcc tok.accounts account_id (balance + amount),
                tok.total_supply + amount⟩

/-- Modelled from the spec (§4.1 `withdraw`; the `FungibleToken` ledger
implementation is not under `src/`): debits `amount` from a registered
account, failing with `AccountNotRegistered` if the account is absent and
with `InsufficientBalance` if its balance is below `amount`; the total
supply drops in lockstep with the balance. -/
def internal_withdraw (tok : FungibleToken) (account_id : AccountId) (amount : Nat) :
    Except FTError FungibleToken :=
  match lookupAcc tok.accounts account_id with
  | none => .error .AccountNotRegistered
  | some balance =>
      if balance < amount then .error .InsufficientBalance
      else .ok ⟨insertAcc tok.accounts account_id (balance - amount),
                tok.total_supply - amount⟩

/-- Modelled from the spec (§4.3; the registration manager implementation
is not under `src/`): create the account's balance record with balance 0.
Used by `new` for the owner and by `storage_deposit`. -/
def internal_register_account (tok : FungibleToken) (account_id : AccountId) : FungibleToken :=
  { tok with accounts := insertAcc tok.accounts account_id 0 }

/-- Modelled from the spec (§4.3 `storage_deposit`; the implementation is
not under `src/`): registers the target account with balance 0 if it is
unregistered; a deposit for an already-registered account is a no-op
refund on the ledger.  The attached-payment bookkeeping (§4.2) moves
platform currency, not tokens, and is outside the ledger state. -/
def storage_deposit (tok : FungibleToken) (account_id : AccountId) : FungibleToken :=
  match lookupAcc tok.accounts account_id with
  | some _ => tok
  | none => internal_register_account tok account_id

/-- Result of a successful `storage_unregister` call: the new ledger, the
standard boolean result (`true` iff a record was removed), the events
emitted (the `on_account_closed` hook), and whether the storage deposit
was refunded to the caller. -/
structure UnregisterOutcome where
  token : FungibleToken
  removed : Bool
  events : List FtEvent
  refunded : Bool
deriving DecidableEq, Repr

/-- Modelled from the spec (§4.3 `storage_unregister`; the implementation
is not under `src/`): fails with `StillHasBalance` unless `force` is set
or the caller's balance is zero; otherwise removes the caller's record,
burns any remaining balance (total supply decreases by it), fires the
on-close notification hook and refunds the storage deposit.  An
unregistered caller gets the no-op result `false`. -/
def storage_unregister (tok : FungibleToken) (caller : AccountId) (force : Bool) :
    Except FTError UnregisterOutcome :=
  match lookupAcc tok.accounts caller with
  | none => .ok ⟨tok, false, [], false⟩
  | some balance =>
      if balance = 0 ∨ force then
        .ok ⟨⟨removeAcc tok.accounts caller, tok.total_supply - balance⟩,
             true, [.AccountClosed caller balance], true⟩
      else .error .StillHasBalance

/-- Modelled from the spec (§4.4 `ft_transfer`; the implementation behind
`impl_fungible_token_core!` is not under `src/`): requires exactly 1 unit
of attached payment (`DepositRequired`), a nonzero amount (`ZeroAmount`),
a receiver distinct from the caller (`SelfTransfer`) and a registered
receiver (`AccountNotRegistered`); then withdraws from the caller
(propagating `InsufficientBalance`) and deposits to the receiver,
emitting a transfer event. -/
def ft_transfer (tok : FungibleToken) (sender_id receiver_id : AccountId) (amount : Nat)
    (attached_deposit : Nat) (memo : Option String) :
    Except FTError (FungibleToken × FtEvent) :=
  if attached_deposit ≠ 1 then .error .DepositRequired
  else if amount = 0 then .error .ZeroAmount
  else if receiver_id = sender_id then .error .SelfTransfer
  else if (lookupAcc tok.accounts receiver_id).isNone then .error .AccountNotRegistered
  else
    match internal_withdraw tok sender_id amount with
    | .error e => .error e
    | .ok tok1 =>
        match internal_deposit tok1 receiver_id amount with
        | .error e => .error e
        | .ok tok2 => .ok (tok2, .Transfer sender_id receiver_id amount memo)

/-- Outcome of the receiver's asynchronous notification call (spec §4.5):
either it returned an unused amount, or it failed outright. -/
inductive NotifyOutcome where
  | Returned (unused : Nat)
  | Failed
deriving DecidableEq, Repr

/-- Modelled from the spec (§4.5 entry of `ft_transfer_call`; the
implementation is not under `src/`): same preconditions and optimistic
balance movement as `ft_transfer`, before the notification call is
scheduled. -/
def ft_transfer_call_entry (tok : FungibleToken) (sender_id receiver_id : AccountId)
    (amount : Nat) (attached_deposit : Nat) (memo : Option String) :
    Except FTError (FungibleToken × FtEvent) :=
  ft_transfer tok sender_id receiver_id amount attached_deposit memo

/-- Modelled from the spec (§4.5): the clamp of the reported unused
amount to at most the original `amount`; a failed notify call counts as
`unused = amount`. -/
def resolveUnused (amount : Nat) : NotifyOutcome → Nat
  | .Returned u => min amount u
  | .Failed => amount

/-- Modelled from the spec (§4.5 resolution; the implementation is not
under `src/`): a failed notify call counts as `unused = amount`; a
reported unused value is clamped to at most `amount` and, when refunding,
to at most the receiver's current balance.  The recovered amount goes
back to the sender, or is burned (total supply decreases, burn event)
when the sender became unregistered; the returned `Nat` is the amount
reported to the original caller as used. -/
def ft_resolve_transfer (tok : FungibleToken) (sender_id receiver_id : AccountId)
    (amount : Nat) (outcome : NotifyOutcome) : FungibleToken × Nat × List FtEvent :=
  let unused : Nat := resolveUnused amount outcome
  let receiver_balance : Nat := (lookupAcc tok.accounts receiver_id).getD 0
  if unused = 0 then (tok, amount, [])
  else if receiver_balance = 0 then (tok, amount, [])
  else
    let refund := min receiver_balance unused
    let acc1 := insertAcc tok.accounts receiver_id (receiver_balance - refund)
    match lookupAcc acc1 sender_id with
    | some sender_balance =>
        (⟨insertAcc acc1 sender_id (sender_balance + refund), tok.total_supply⟩,
         amount - refund,
         [.Transfer receiver_id sender_id refund (some "refund")])
    | none =>
        (⟨acc1, tok.total_supply - refund⟩,
         amount,
         [.Burn receiver_id refund none])

/-- `new` from `src/ft/src/lib.rs` lines 59-80: refuses to run when state
already exists, validates the metadata, then registers the owner, mints
the whole supply to it and emits the mint event.  The
`env::state_exists()` probe is passed in explicitly. -/
def new (state_exists : Bool) (owner_id : AccountId) (total_supply : Nat)
    (metadata : FungibleTokenMetadata) : Except FTError (Contract × List FtEvent) :=
  if state_exists then .error .AlreadyInitialized
  else if ¬metadata.assert_valid then .error .InvalidMetadata
  else
    match internal_deposit (internal_register_account ⟨[], 0⟩ owner_id)
        owner_id total_supply with
    | .error e => .error e
    | .ok tok =>
        .ok (⟨tok, metadata⟩,
             [.Mint owner_id total_supply (some "Initial tokens supply is minted")])

/-- The embedded SVG icon of `src/ft/src/lib.rs` line 34. -/
def DATA_IMAGE_SVG_NEAR_ICON : String := "data:image/svg+xml,%3Csvg id='Layer_2' data-name='Layer 2' xmlns='http://www.w3.org/2000/svg' xmlns:xlink='http://www.w3.org/1999/xlink' viewBox='0 0 71.68 59.2'%3E%3Cdefs%3E%3ClinearGradient id='linear-gradient' x1='35.84' y1='56.93' x2='35.84' y2='-1.76' gradientUnits='userSpaceOnUse'%3E%3Cstop offset='0' stop-color='%230e0c0d'/%3E%3Cstop offset='.54' stop-color='%23271f1b'/%3E%3Cstop offset='.99' stop-color='%2340332a'/%3E%3C/linearGradient%3E%3ClinearGradient id='linear-gradient-2' x1='35.84' y1='54.45' x2='35.84' y2='1.09' xlink:href='%23linear-gradient'/%3E%3ClinearGradient id='linear-gradient-3' x1='35.84' y1='54.88' x2='35.84' y2='14.08' gradientUnits='userSpaceOnUse'%3E%3Cstop offset='0' stop-color='%230e0c0d'/%3E%3Cstop offset='.29' stop-color='%23272322'/%3E%3Cstop offset='.89' stop-color='%23675f59'/%3E%3Cstop offset='.99' stop-color='%23736a63'/%3E%3C/linearGradient%3E%3C/defs%3E%3Cg id='Layer_1-2' data-name='Layer 1'%3E%3Cg%3E%3Ccircle cx='35.84' cy='29.6' r='29.35' style='fill: url(%23linear-gradient);'/%3E%3Cpath d='m35.84,59.2c-16.32,0-29.6-13.28-29.6-29.6S19.52,0,35.84,0s29.6,13.28,29.6,29.6-13.28,29.6-29.6,29.6Zm0-58.7C19.79.5,6.74,13.55,6.74,29.6s13.05,29.1,29.1,29.1,29.1-13.05,29.1-29.1S51.88.5,35.84.5Z' style='fill: %237f6c60;'/%3E%3C/g%3E%3Cg%3E%3Ccircle cx='35.84' cy='29.6' r='26.68' style='fill: url(%23linear-gradient-2);'/%3E%3Cpath d='m35.84,56.53c-14.85,0-26.93-12.08-26.93-26.93S20.99,2.67,35.84,2.67s26.93,12.08,26.93,26.93-12.08,26.93-26.93,26.93Zm0-53.37c-14.58,0-26.43,11.86-26.43,26.43s11.86,26.43,26.43,26.43,26.43-11.86,26.43-26.43S50.42,3.17,35.84,3.17Z' style='fill: %23966e4d;'/%3E%3C/g%3E%3Ccircle cx='35.84' cy='29.6' r='24.08' style='fill: %233e657e;'/%3E%3Cg%3E%3Cg%3E%3Cg%3E%3Crect x='29.31' y='8.41' width='12.5' height='7.06' style='fill: %23c6b673;'/%3E%3Cpath d='m42.06,15.72h-13v-7.56h13v7.56Zm-12.5-.5h12v-6.56h-12v6.56Z' style='fill: %23fff;'/%3E%3C/g%3E%3Cg%3E%3Cpolygon points='43.48 8.41 27.64 8.41 35.56 3.93 43.48 8.41' style='fill: %23c6b673;'/%3E%3Cpath d='m44.43,8.66h-17.73l8.87-5.01,8.87,5.01Zm-15.83-.5h13.93l-6.97-3.94-6.97,3.94Z' style='fill: %23fff;'/%3E%3C/g%3E%3Cg%3E%3Cpath d='m37.02,11.74s-.26-.87-1.46-.87-1.46.87-1.46.87v3.73h2.91v-3.73Z' style='fill: %230e0c0d;'/%3E%3Cpath d='m37.27,15.72h-3.41v-4.05s.34-1.05,1.71-1.05,1.68,1.01,1.7,1.05v.07s.01,3.98.01,3.98Zm-2.91-.5h2.41v-3.44c-.06-.14-.33-.67-1.21-.67s-1.15.53-1.21.67v3.44Z' style='fill: %23fff;'/%3E%3C/g%3E%3Cg%3E%3Crect x='23.11' y='10.89' width='6.2' height='4.58' style='fill: %23c6b673;'/%3E%3Cpath d='m29.56,15.72h-6.7v-5.08h6.7v5.08Zm-6.2-.5h5.7v-4.08h-5.7v4.08Z' style='fill: %23fff;'/%3E%3C/g%3E%3Cg%3E%3Crect x='41.81' y='10.89' width='6.2' height='4.58' style='fill: %23c6b673;'/%3E%3Cpath d='m48.26,15.72h-6.7v-5.08h6.7v5.08Zm-6.2-.5h5.7v-4.08h-5.7v4.08Z' style='fill: %23fff;'/%3E%3C/g%3E%3C/g%3E%3Cg%3E%3Cg%3E%3Cline x1='23.43' y1='11.11' x2='29.14' y2='15.15' style='fill: %230e0c0d;'/%3E%3Crect x='26.03' y='9.63' width='.5' height='6.99' transform='translate(.39 27) rotate(-54.72)' style='fill: %23fff;'/%3E%3C/g%3E%3Cg%3E%3Cline x1='41.81' y1='15.47' x2='48.01' y2='10.89' style='fill: %230e0c0d;'/%3E%3Crect x='41.06' y='12.93' width='7.71' height='.5' transform='translate(.95 29.24) rotate(-36.42)' style='fill: %23fff;'/%3E%3C/g%3E%3Cpolygon points='41.67 15.35 36.87 11.95 36.88 11.53 41.67 8.41 41.95 8.83 37.46 11.75 41.96 14.95 41.67 15.35' style='fill: %23fff;'/%3E%3Cpolygon points='29.47 15.67 29.16 15.28 33.68 11.76 29.17 8.73 29.45 8.31 34.24 11.54 34.26 11.94 29.47 15.67' style='fill: %23fff;'/%3E%3Crect x='35.31' y='4.18' width='.5' height='4.23' style='fill: %23fff;'/%3E%3C/g%3E%3C/g%3E%3Cg%3E%3Cpath d='m71.43,29.6c0-5.02-1.04-9.79-2.92-14.12H3.17C1.29,19.8.25,24.58.25,29.6s1.08,9.99,3.03,14.39h10.08c4.74,7.4,13.04,12.3,22.48,12.3s17.73-4.9,22.48-12.3h10.08c1.95-4.4,3.03-9.27,3.03-14.39Z' style='fill: url(%23linear-gradient-3);'/%3E%3Cpath d='m35.84,56.53c-9.18,0-17.62-4.59-22.61-12.3H3.12l-.07-.15c-2.02-4.58-3.05-9.45-3.05-14.49s.99-9.72,2.94-14.22l.07-.15h65.68l.07.15c1.95,4.5,2.94,9.29,2.94,14.22s-1.03,9.91-3.05,14.49l-.07.15h-10.11c-5,7.7-13.44,12.3-22.61,12.3ZM3.44,43.73h10.06l.07.12c4.89,7.63,13.22,12.18,22.27,12.18s17.37-4.55,22.27-12.18l.07-.12h10.06c1.95-4.47,2.94-9.22,2.94-14.14s-.95-9.48-2.83-13.87H3.33c-1.88,4.39-2.83,9.06-2.83,13.87s.99,9.67,2.94,14.14Z' style='fill: %23966e4d;'/%3E%3C/g%3E%3Cg%3E%3Cg%3E%3Cpath d='m11.51,19.29h1.46v6.71h-1.49l-3.77-4.49v4.49h-1.44v-6.71h1.49l3.75,4.47v-4.47Z' style='fill: %23fff;'/%3E%3Cpath d='m20.23,20.74h-4.73v1.17h3.81v1.45h-3.81v1.17h4.73v1.45h-6.19v-6.71h6.19v1.45Z' style='fill: %23fff;'/%3E%3Cpath d='m26.49,19.29c.76,0,1.39.61,1.39,1.38v5.33h-1.46v-2.16h-3.8v2.16h-1.44v-5.33c0-.76.61-1.38,1.38-1.38h3.94Zm-.07,3.09v-1.64h-3.8v1.64h3.8Z' style='fill: %23fff;'/%3E%3Cpath d='m35.64,22.41c0,.75-.62,1.38-1.39,1.38h-.07c.48.56.99,1.16,1.45,1.71v.49h-1.49l-1.85-2.21h-1.92s.03.03.03.07c0,0-.02,0-.03,0v2.15h-1.44v-6.7h5.32c.76,0,1.39.62,1.39,1.38v1.73Zm-5.26-.07h3.8v-1.59h-3.8v1.59Z' style='fill: %23fff;'/%3E%3C/g%3E%3Cg%3E%3Cpath d='m45.76,19.29v6.71h-1.23v-2.74h-6.66v2.74h-1.23v-6.71h1.23v2.74h6.66v-2.74h1.23Z' style='fill: %23fff;'/%3E%3Cpath d='m54.7,19.29h1.24v5.41c0,.72-.59,1.29-1.3,1.29h-6.38c-.72,0-1.29-.58-1.29-1.29v-5.41h1.23v5.41s.03.07.07.07h6.38s.06-.03.06-.07v-5.41Z' style='fill: %23fff;'/%3E%3Cpath d='m65.85,21.9c0,.18-.03.34-.09.48.21.22.36.55.36.88v1.44c0,.72-.59,1.29-1.3,1.29h-7.67v-6.71h7.41c.71,0,1.29.58,1.29,1.29v1.31Zm-7.41-1.38s-.07.03-.07.07v1.31s.03.07.07.07h6.11s.06-.03.06-.07v-1.31s-.03-.07-.06-.07h-6.11Zm6.44,2.74s-.03-.06-.07-.06h-6.37s-.07.02-.07.06v1.44s.03.07.07.07h6.37s.07-.03.07-.07v-1.44Z' style='fill: %23fff;'/%3E%3C/g%3E%3C/g%3E%3Cg%3E%3Cpath d='m6.33,28.62h6.04s0,1.01,0,1.01h-4.98s0,4.16,0,4.16h4.64s0,.99,0,.99h-4.64s0,4.43,0,4.43h4.98s0,1.01,0,1.01h-6.04s-.02-11.59-.02-11.59Z' style='fill: %23fff;'/%3E%3Cpath d='m20.78,29.09v1.22c-.83-.61-1.81-.92-2.7-.92-1.23,0-2.37.63-2.37,1.94,0,1.14.88,1.69,2.6,2.46,1.8.84,3.08,1.59,3.08,3.35,0,2.12-1.74,3.3-3.7,3.3-1.33,0-2.47-.54-3.16-1.09v-1.33c.8.84,2.01,1.37,3.17,1.37,1.33,0,2.59-.75,2.59-2.16,0-1.19-.88-1.76-2.64-2.57-1.78-.82-3.03-1.49-3.03-3.26,0-2.01,1.62-3.06,3.49-3.07,1.05,0,2.02.34,2.67.75Z' style='fill: %23fff;'/%3E%3Cpath d='m26.29,29.6h-3.75s0-1.01,0-1.01h8.57s0,1,0,1h-3.75s.02,10.59.02,10.59h-1.08s-.02-10.59-.02-10.59Z' style='fill: %23fff;'/%3E%3Cpath d='m39.94,40.17l-1.49-3.76h-5.19s-1.48,3.77-1.48,3.77h-1.16s4.62-11.61,4.62-11.61h1.19s4.67,11.59,4.67,11.59h-1.17Zm-1.88-4.79l-2.21-5.54-2.19,5.55h4.4Z' style='fill: %23fff;'/%3E%3Cpath d='m44.35,29.57h-3.75s0-1.01,0-1.01h8.57s0,1,0,1h-3.75s.02,10.59.02,10.59h-1.08s-.02-10.59-.02-10.59Z' style='fill: %23fff;'/%3E%3Cpath d='m51.23,28.55h6.04s0,1.01,0,1.01h-4.98s0,4.16,0,4.16h4.64s0,.99,0,.99h-4.64s0,4.43,0,4.43h4.98s0,1.01,0,1.01h-6.04s-.02-11.59-.02-11.59Z' style='fill: %23fff;'/%3E%3Cpath d='m65.68,29.02v1.22c-.83-.61-1.81-.92-2.7-.92-1.23,0-2.37.63-2.37,1.94,0,1.14.88,1.69,2.6,2.46,1.8.84,3.08,1.59,3.08,3.35,0,2.12-1.74,3.3-3.7,3.3-1.33,0-2.47-.54-3.16-1.09v-1.33c.8.84,2.01,1.37,3.17,1.37,1.33,0,2.59-.75,2.59-2.16,0-1.19-.88-1.76-2.64-2.57-1.78-.82-3.03-1.49-3.03-3.26,0-2.01,1.62-3.06,3.49-3.07,1.05,0,2.02.34,2.67.75Z' style='fill: %23fff;'/%3E%3C/g%3E%3Cg%3E%3Cpath d='m20.73,42.72v.4h-.88v1.77h-.4v-1.77h-.88v-.4h2.16Z' style='fill: %23fff;'/%3E%3Cpath d='m28.27,42.72c.23,0,.42.19.42.42v1.33c0,.23-.19.42-.42.42h-1.33c-.23,0-.42-.19-.42-.42v-1.33c0-.23.19-.42.42-.42h1.33Zm0,1.77s.02,0,.02-.02v-1.33s0-.02-.02-.02h-1.33s-.02,0-.02.02v1.33s0,.02.02.02h1.33Z' style='fill: %23fff;'/%3E%3Cpath d='m36.68,42.72v.1l-.82.98.82.98v.11h-.44l-.74-.88h-.51v.88h-.4v-2.16h.4v.88h.51c.24-.29.5-.6.74-.88h.44Z' style='fill: %23fff;'/%3E%3Cpath d='m44.56,43.12h-1.59v.49h1.28v.4h-1.28v.49h1.59v.4h-1.99v-2.16h1.99v.4Z' style='fill: %23fff;'/%3E%3Cpath d='m52.21,42.72h.4v2.16h-.43l-1.33-1.59v1.59h-.4v-2.16h.43l1.33,1.59v-1.59Z' style='fill: %23fff;'/%3E%3C/g%3E%3Cpath d='m20.13,47.35c4.17,3.73,9.67,5.99,15.71,5.99s11.54-2.27,15.71-5.99h-31.42Z' style='fill: %2384763a;'/%3E%3C/g%3E%3C/svg%3E"

/-- The fixed metadata record that `new_default_meta` passes to `new`
(`src/ft/src/lib.rs` lines 45-53). -/
def defaultMetadata : FungibleTokenMetadata :=
  { spec := FT_METADATA_SPEC
    name := "NEAR Hub Estates"
    symbol := "ESTATES"
    icon := some DATA_IMAGE_SVG_NEAR_ICON
    reference := none
    reference_hash := none
    decimals := 24 }

/-- `new_default_meta` from `src/ft/src/lib.rs` lines 41-55: initializes
the contract through `new` with the fixed default metadata record. -/
def new_default_meta (state_exists : Bool) (owner_id : AccountId) (total_supply : Nat) :
    Except FTError (Contract × List FtEvent) :=
  new state_exists owner_id total_supply
    { spec := FT_METADATA_SPEC
      name := "NEAR Hub Estates"
      symbol := "ESTATES"
      icon := some DATA_IMAGE_SVG_NEAR_ICON
      reference := none
      reference_hash := none
      decimals := 24 }

/-- `ft_metadata` from `src/ft/src/lib.rs` lines 96-98: read of the
stored metadata record. -/
def ft_metadata (c : Contract) : FungibleTokenMetadata :=
  c.metadata

/-- `ft_balance_of` view: balance of an account, 0 when unregistered. -/
def ft_balance_of (c : Contract) (account_id : AccountId) : Nat :=
  (lookupAcc c.token.accounts account_id).getD 0

/-- `ft_total_supply` view. -/
def ft_total_supply (c : Contract) : Nat :=
  c.token.total_supply

/-- Modelled from the spec: the `PanicOnDefault` derive on `Contract`
(`src/ft/src/lib.rs` line 28) makes default construction — a method call
on an account whose state was never initialized — abort with the message
`The contract is not initialized` instead of producing a usable state. -/
def Contract.default : Except String Contract :=
  .error "The contract is not initialized"

/-- Loading contract state at the start of a method call: deserialization
of existing state, or the panicking `Default` fallback when the account
was never initialized. -/
def loadContract (stored : Option Contract) : Except String Contract :=
  match stored with
  | some c => .ok c
  | none => Contract.default

/-- A view method call as dispatched by the runtime: load state (possibly
panicking for an uninitialized account), then query a balance. -/
def ft_balance_of_call (stored : Option Contract) (account_id : AccountId) :
    Except String Nat :=
  (loadContract stored).map (fun c => ft_balance_of c account_id)

/-! ### Sequences of fully-succeeding operations -/

/-- One public mutating operation of an initialized contract: a transfer,
a transfer-and-notify with its resolution (the notification outcome given
explicitly), or a storage registration / unregistration. -/
inductive Op where
  | TransferOp (sender_id receiver_id : AccountId) (amount attached_deposit : Nat)
      (memo : Option String)
  | TransferCallOp (sender_id receiver_id : AccountId) (amount attached_deposit : Nat)
      (memo : Option String) (outcome : NotifyOutcome)
  | StorageDepositOp (account_id : AccountId)
  | StorageUnregisterOp (caller : AccountId) (force : Bool)
deriving DecidableEq, Repr

/-- Apply one operation to the contract state; `.error` is the platform
rolling the whole call back. -/
def applyOp (c : Contract) (op : Op) : Except FTError Contract :=
  match op with
  | .TransferOp s r amount d memo =>
      match ft_transfer c.token s r amount d memo with
      | .error e => .error e
      | .ok p => .ok { c with token := p.1 }
  | .TransferCallOp s r amount d memo outcome =>
      match ft_transfer_call_entry c.token s r amount d memo with
      | .error e => .error e
      | .ok p => .ok { c with token := (ft_resolve_transfer p.1 s r amount outcome).1 }
  | .StorageDepositOp a => .ok { c with token := storage_deposit c.token a }
  | .StorageUnregisterOp a force =>
      match storage_unregister c.token a force with
      | .error e => .error e
      | .ok o => .ok { c with token := o.token }

/-- Run a sequence of operations, failing as soon as one fails. -/
def runOps (c : Contract) : List Op → Except FTError Contract
  | [] => .ok c
  | op :: rest =>
      match applyOp c op with
      | .error e => .error e
      | .ok c' => runOps c' rest

/-- Well-formedness of reachable ledger states: pairwise-distinct account
keys, conservation (sum of balances equals the stored total supply), and
a total supply within the `u128` range. -/
def WFtok (tok : FungibleToken) : Prop :=
  NodupKeys tok.accounts ∧ sumBalances tok.accounts = tok.total_supply ∧
    tok.total_supply ≤ U128_MAX

/-- A small valid metadata record used to instantiate theorems on
concrete inputs. -/
def mdPlain : FungibleTokenMetadata :=
  ⟨FT_METADATA_SPEC, "Token", "TOK", none, none, none, 24⟩

/-! ### Association-list lemmas -/

theorem lookupAcc_insertAcc_self (l : List (AccountId × Nat)) (a : AccountId) (v : Nat) :
    lookupAcc (insertAcc l a v) a = some v := by
  induction l with
  | nil => simp [insertAcc, lookupAcc]
  | cons hd tl ih =>
      obtain ⟨k, w⟩ := hd
      by_cases h : k = a
      · simp [insertAcc, lookupAcc, h]
      · simp [insertAcc, lookupAcc, h, ih]

theorem lookupAcc_insertAcc_ne (l : List (AccountId × Nat)) (a b : AccountId) (v : Nat)
    (h : b ≠ a) : lookupAcc (insertAcc l a v) b = lookupAcc l b := by
  have hab : ¬a = b := fun h' => h h'.symm
  induction l with
  | nil => simp [insertAcc, lookupAcc, hab]
  | cons hd tl ih =>
      obtain ⟨k, w⟩ := hd
      by_cases hk : k = a
      · subst hk
        simp [insertAcc, lookupAcc, hab]
      · by_cases hkb : k = b <;> simp [insertAcc, lookupAcc, hk, hkb, h, hab, ih]

theorem lookupAcc_removeAcc_ne (l : List (AccountId × Nat)) (a b : AccountId)
    (h : b ≠ a) : lookupAcc (removeAcc l a) b = lookupAcc l b := by
  have hab : ¬a = b := fun h' => h h'.symm
  induction l with
  | nil => simp [removeAcc]
  | cons hd tl ih =>
      obtain ⟨k, w⟩ := hd
      by_cases hk : k = a
      · subst hk
        simp [removeAcc, lookupAcc, hab]
      · by_cases hkb : k = b <;> simp [removeAcc, lookupAcc, hk, hkb, h, hab, ih]

theorem mem_insertAcc {l : List (AccountId × Nat)} {a : AccountId} {v : Nat}
    {p : AccountId × Nat} (h : p ∈ insertAcc l a v) : p = (a, v) ∨ p ∈ l := by
  induction l with
  | nil => exact Or.inl (by simpa [insertAcc] using h)
  | cons hd tl ih =>
      obtain ⟨k, w⟩ := hd
      by_cases hk : k = a
      · simp only [insertAcc, if_pos hk, List.mem_cons] at h
        rcases h with h | h
        · exact Or.inl h
        · exact Or.inr (List.mem_cons_of_mem _ h)
      · simp only [insertAcc, if_neg hk, List.mem_cons] at h
        rcases h with h | h
        · exact Or.inr (h ▸ List.mem_cons_self _ _)
        · rcases ih h with h' | h'
          · exact Or.inl h'
          · exact Or.inr (List.mem_cons_of_mem _ h')

theorem mem_removeAcc {l : List (AccountId × Nat)} {a : AccountId}
    {p : AccountId × Nat} (h : p ∈ removeAcc l a) : p ∈ l := by
  induction l with
  | nil => simp [removeAcc] at h
  | cons hd tl ih =>
      obtain ⟨k, w⟩ := hd
      by_cases hk : k = a
      · simp only [removeAcc, if_pos hk] at h
        exact List.mem_cons_of_mem _ h
      · simp only [removeAcc, if_neg hk, List.mem_cons] at h
        rcases h with h | h
        · exact h ▸ List.mem_cons_self _ _
        · exact List.mem_cons_of_mem _ (ih h)

theorem keys_insertAcc {l : List (AccountId × Nat)} {a : AccountId} {v : Nat}
    {x : AccountId} (h : x ∈ (insertAcc l a v).map Prod.fst) :
    x = a ∨ x ∈ l.map Prod.fst := by
  rcases List.mem_map.mp h with ⟨p, hp, hx⟩
  rcases mem_insertAcc hp with h' | h'
  · subst h'
    exact Or.inl hx.symm
  · exact Or.inr (List.mem_map.mpr ⟨p, h', hx⟩)

theorem keys_removeAcc {l : List (AccountId × Nat)} {a : AccountId}
    {x : AccountId} (h : x ∈ (removeAcc l a).map Prod.fst) : x ∈ l.map Prod.fst := by
  rcases List.mem_map.mp h with ⟨p, hp, hx⟩
  exact List.mem_map.mpr ⟨p, mem_removeAcc hp, hx⟩

theorem nodupKeys_insertAcc (l : List (AccountId × Nat)) (a : AccountId) (v : Nat)
    (hnd : NodupKeys l) : NodupKeys (insertAcc l a v) := by
  induction l with
  | nil => simp [insertAcc, NodupKeys]
  | cons hd tl ih =>
      obtain ⟨k, w⟩ := hd
      rw [NodupKeys, List.map_cons, List.nodup_cons] at hnd
      by_cases hk : k = a
      · subst hk
        have heq : insertAcc ((k, w) :: tl) k v = (k, v) :: tl := by
          simp [insertAcc]
        rw [NodupKeys, heq, List.map_cons, List.nodup_cons]
        exact hnd
      · rw [NodupKeys]
        simp only [insertAcc, if_neg hk, List.map_cons, List.nodup_cons]
        refine ⟨fun hmem => ?_, ih hnd.2⟩
        rcases keys_insertAcc hmem with h' | h'
        · exact hk h'
        · exact hnd.1 h'

theorem nodupKeys_removeAcc (l : List (AccountId × Nat)) (a : AccountId)
    (hnd : NodupKeys l) : NodupKeys (removeAcc l a) := by
  induction l with
  | nil => simp [removeAcc, NodupKeys]
  | cons hd tl ih =>
      obtain ⟨k, w⟩ := hd
      rw [NodupKeys, List.map_cons, List.nodup_cons] at hnd
      by_cases hk : k = a
      · simp only [removeAcc, if_pos hk]
        exact hnd.2
      · rw [NodupKeys]
        simp only [removeAcc, if_neg hk, List.map_cons, List.nodup_cons]
        exact ⟨fun hmem => hnd.1 (keys_removeAcc hmem), ih hnd.2⟩

theorem lookupAcc_removeAcc_self (l : List (AccountId × Nat)) (a : AccountId)
    (hnd : NodupKeys l) : lookupAcc (removeAcc l a) a = none := by
  induction l with
  | nil => simp [removeAcc, lookupAcc]
  | cons hd tl ih =>
      obtain ⟨k, w⟩ := hd
      rw [NodupKeys, List.map_cons, List.nodup_cons] at hnd
      by_cases hk : k = a
      · subst hk
        simp only [removeAcc, if_pos rfl]
        cases hlk : lookupAcc tl k with
        | none => exact hlk
        | some b =>
            exfalso
            apply hnd.1
            clear ih hnd
            induction tl with
            | nil => simp [lookupAcc] at hlk
            | cons hd' tl' ih' =>
                obtain ⟨k', w'⟩ := hd'
                by_cases hk' : k' = k
                · simp [hk']
                · simp only [lookupAcc, if_neg hk'] at hlk
                  simp only [List.map_cons, List.mem_cons]
                  exact Or.inr (ih' hlk)
      · simp only [removeAcc, if_neg hk, lookupAcc, if_neg hk]
        exact ih hnd.2

theorem sumBalances_nil : sumBalances [] = 0 := rfl

theorem sumBalances_cons (k : AccountId) (w : Nat) (l : List (AccountId × Nat)) :
    sumBalances ((k, w) :: l) = w + sumBalances l := by
  simp [sumBalances]

theorem sumBalances_insertAcc (l : List (AccountId × Nat)) (a : AccountId) (v b : Nat)
    (h : lookupAcc l a = some b) :
    sumBalances (insertAcc l a v) + b = sumBalances l + v := by
  induction l with
  | nil => simp [lookupAcc] at h
  | cons hd tl ih =>
      obtain ⟨k, w⟩ := hd
      by_cases hk : k = a
      · simp only [lookupAcc, if_pos hk] at h
        cases h
        simp only [insertAcc, if_pos hk, sumBalances_cons]
        omega
      · simp only [lookupAcc, if_neg hk] at h
        simp only [insertAcc, if_neg hk, sumBalances_cons]
        have := ih h
        omega

theorem sumBalances_insertAcc_none (l : List (AccountId × Nat)) (a : AccountId) (v : Nat)
    (h : lookupAcc l a = none) :
    sumBalances (insertAcc l a v) = sumBalances l + v := by
  induction l with
  | nil => simp [insertAcc, sumBalances]
  | cons hd tl ih =>
      obtain ⟨k, w⟩ := hd
      by_cases hk : k = a
      · simp [lookupAcc, hk] at h
      · simp only [lookupAcc, if_neg hk] at h
        simp only [insertAcc, if_neg hk, sumBalances_cons]
        have := ih h
        omega

theorem lookupAcc_le_sumBalances (l : List (AccountId × Nat)) (a : AccountId) (b : Nat)
    (h : lookupAcc l a = some b) : b ≤ sumBalances l := by
  induction l with
  | nil => simp [lookupAcc] at h
  | cons hd tl ih =>
      obtain ⟨k, w⟩ := hd
      by_cases hk : k = a
      · simp only [lookupAcc, if_pos hk] at h
        cases h
        simp only [sumBalances_cons]
        omega
      · simp only [lookupAcc, if_neg hk] at h
        have := ih h
        simp only [sumBalances_cons]
        omega

theorem sumBalances_removeAcc (l : List (AccountId × Nat)) (a : AccountId) (b : Nat)
    (h : lookupAcc l a = some b) :
    sumBalances (removeAcc l a) + b = sumBalances l := by
  induction l with
  | nil => simp [lookupAcc] at h
  | cons hd tl ih =>
      obtain ⟨k, w⟩ := hd
      by_cases hk : k = a
      · simp only [lookupAcc, if_pos hk] at h
        cases h
        simp only [removeAcc, if_pos hk, sumBalances_cons]
        omega
      · simp only [lookupAcc, if_neg hk] at h
        simp only [removeAcc, if_neg hk, sumBalances_cons]
        have := ih h
        omega

/-! ### Preservation of well-formedness -/

theorem WFtok_mk {X : List (AccountId × Nat)} {Y : Nat} (h1 : NodupKeys X)
    (h2 : sumBalances X = Y) (h3 : Y ≤ U128_MAX) : WFtok ⟨X, Y⟩ :=
  ⟨h1, h2, h3⟩

theorem wf_internal_deposit {tok tok' : FungibleToken} {a : AccountId} {amount : Nat}
    (h : internal_deposit tok a amount = .ok tok') (hwf : WFtok tok) : WFtok tok' := by
  obtain ⟨hnd, hsum, hbound⟩ := hwf
  unfold internal_deposit at h
  split at h
  · simp at h
  rename_i bal hl
  split at h
  · simp at h
  rename_i h1
  split at h
  · simp at h
  rename_i h2
  simp only [Except.ok.injEq] at h
  subst h
  have hsi := sumBalances_insertAcc tok.accounts a (bal + amount) bal hl
  exact WFtok_mk (nodupKeys_insertAcc _ _ _ hnd) (by omega) (by omega)

theorem wf_internal_withdraw {tok tok' : FungibleToken} {a : AccountId} {amount : Nat}
    (h : internal_withdraw tok a amount = .ok tok') (hwf : WFtok tok) : WFtok tok' := by
  obtain ⟨hnd, hsum, hbound⟩ := hwf
  unfold internal_withdraw at h
  split at h
  · simp at h
  rename_i bal hl
  split at h
  · simp at h
  rename_i h1
  simp only [Except.ok.injEq] at h
  subst h
  have hle := lookupAcc_le_sumBalances tok.accounts a bal hl
  have hsi := sumBalances_insertAcc tok.accounts a (bal - amount) bal hl
  exact WFtok_mk (nodupKeys_insertAcc _ _ _ hnd) (by omega) (by omega)

theorem ft_transfer_ok_ne {tok : FungibleToken} {s r : AccountId} {amount d : Nat}
    {memo : Option String} {p : FungibleToken × FtEvent}
    (h : ft_transfer tok s r amount d memo = .ok p) : r ≠ s := by
  unfold ft_transfer at h
  split at h
  · simp at h
  split at h
  · simp at h
  split at h
  · simp at h
  · rename_i hne
    exact hne

theorem wf_ft_transfer {tok : FungibleToken} {s r : AccountId} {amount d : Nat}
    {memo : Option String} {p : FungibleToken × FtEvent}
    (h : ft_transfer tok s r amount d memo = .ok p) (hwf : WFtok tok) : WFtok p.1 := by
  unfold ft_transfer at h
  split at h
  · simp at h
  split at h
  · simp at h
  split at h
  · simp at h
  split at h
  · simp at h
  split at h
  · simp at h
  · rename_i tok1 hw
    split at h
    · simp at h
    · rename_i tok2 hd
      simp only [Except.ok.injEq] at h
      subst h
      exact wf_internal_deposit hd (wf_internal_withdraw hw hwf)

theorem wf_ft_resolve_transfer {tok : FungibleToken} {s r : AccountId} {amount : Nat}
    {outcome : NotifyOutcome} (hwf : WFtok tok) :
    WFtok (ft_resolve_transfer tok s r amount outcome).1 := by
  obtain ⟨hnd, hsum, hbound⟩ := hwf
  simp only [ft_resolve_transfer]
  generalize resolveUnused amount outcome = u
  cases hr : lookupAcc tok.accounts r with
  | none =>
      simp only [hr, Option.getD_none]
      split
      · exact ⟨hnd, hsum, hbound⟩
      · rw [if_pos trivial]
        exact ⟨hnd, hsum, hbound⟩
  | some rb =>
      simp only [hr, Option.getD_some]
      split
      · exact ⟨hnd, hsum, hbound⟩
      split
      · exact ⟨hnd, hsum, hbound⟩
      rename_i hu hrb
      split
      · rename_i sb hs1
        have h1 := sumBalances_insertAcc tok.accounts r (rb - min rb u) rb hr
        have h2 := sumBalances_insertAcc (insertAcc tok.accounts r (rb - min rb u))
          s (sb + min rb u) sb hs1
        have hrle : min rb u ≤ rb := Nat.min_le_left _ _
        have hble := lookupAcc_le_sumBalances tok.accounts r rb hr
        exact WFtok_mk (nodupKeys_insertAcc _ _ _ (nodupKeys_insertAcc _ _ _ hnd))
          (by omega) hbound
      · rename_i hs1
        have h1 := sumBalances_insertAcc tok.accounts r (rb - min rb u) rb hr
        have hrle : min rb u ≤ rb := Nat.min_le_left _ _
        have hble := lookupAcc_le_sumBalances tok.accounts r rb hr
        exact WFtok_mk (nodupKeys_insertAcc _ _ _ hnd) (by omega) (by omega)

theorem wf_storage_deposit {tok : FungibleToken} {a : AccountId} (hwf : WFtok tok) :
    WFtok (storage_deposit tok a) := by
  obtain ⟨hnd, hsum, hbound⟩ := hwf
  unfold storage_deposit
  split
  · exact ⟨hnd, hsum, hbound⟩
  · rename_i hl
    have hsi := sumBalances_insertAcc_none tok.accounts a 0 hl
    exact WFtok_mk (nodupKeys_insertAcc _ _ _ hnd) (by omega) hbound

theorem wf_storage_unregister {tok : FungibleToken} {caller : AccountId} {force : Bool}
    {o : UnregisterOutcome} (h : storage_unregister tok caller force = .ok o)
    (hwf : WFtok tok) : WFtok o.token := by
  obtain ⟨hnd, hsum, hbound⟩ := hwf
  unfold storage_unregister at h
  split at h
  · simp only [Except.ok.injEq] at h
    subst h
    exact ⟨hnd, hsum, hbound⟩
  · rename_i bal hb
    split at h
    · simp only [Except.ok.injEq] at h
      subst h
      have h1 := sumBalances_removeAcc tok.accounts caller bal hb
      have h2 := lookupAcc_le_sumBalances tok.accounts caller bal hb
      exact WFtok_mk (nodupKeys_removeAcc _ _ hnd) (by omega) (by omega)
    · simp at h

theorem wf_applyOp {c c' : Contract} {op : Op} (h : applyOp c op = .ok c')
    (hwf : WFtok c.token) : WFtok c'.token := by
  cases op with
  | TransferOp s r amount d memo =>
      simp only [applyOp] at h
      split at h
      · simp at h
      · rename_i p hp
        simp only [Except.ok.injEq] at h
        subst h
        exact wf_ft_transfer hp hwf
  | TransferCallOp s r amount d memo outcome =>
      simp only [applyOp] at h
      split at h
      · simp at h
      · rename_i p hp
        simp only [Except.ok.injEq] at h
        subst h
        exact wf_ft_resolve_transfer (wf_ft_transfer hp hwf)
  | StorageDepositOp a =>
      simp only [applyOp] at h
      simp only [Except.ok.injEq] at h
      subst h
      exact wf_storage_deposit hwf
  | StorageUnregisterOp a force =>
      simp only [applyOp] at h
      split at h
      · simp at h
      · rename_i o ho
        simp only [Except.ok.injEq] at h
        subst h
        exact wf_storage_unregister ho hwf

theorem wf_runOps {c c' : Contract} {ops : List Op} (h : runOps c ops = .ok c')
    (hwf : WFtok c.token) : WFtok c'.token := by
  induction ops generalizing c with
  | nil =>
      simp only [runOps, Except.ok.injEq] at h
      subst h
      exact hwf
  | cons op rest ih =>
      simp only [runOps] at h
      split at h
      · simp at h
      · rename_i c1 h1
        exact ih h (wf_applyOp h1 hwf)

theorem wf_new {se : Bool} {owner : AccountId} {ts : Nat} {md : FungibleTokenMetadata}
    {c : Contract} {evs : List FtEvent} (h : new se owner ts md = .ok (c, evs)) :
    WFtok c.token := by
  unfold new at h
  split at h
  · simp at h
  split at h
  · simp at h
  split at h
  · simp at h
  · rename_i tok htok
    simp only [Except.ok.injEq, Prod.mk.injEq] at h
    obtain ⟨hc, hev⟩ := h
    subst hc
    refine wf_internal_deposit htok (WFtok_mk ?_ ?_ ?_)
    · simp [internal_register_account, insertAcc, NodupKeys]
    · simp [internal_register_account, insertAcc, sumBalances]
    · exact Nat.zero_le _

theorem applyOp_metadata {c c' : Contract} {op : Op} (h : applyOp c op = .ok c') :
    c'.metadata = c.metadata := by
  cases op with
  | TransferOp s r amount d memo =>
      simp only [applyOp] at h
      split at h
      · simp at h
      · simp only [Except.ok.injEq] at h
        subst h
        rfl
  | TransferCallOp s r amount d memo outcome =>
      simp only [applyOp] at h
      split at h
      · simp at h
      · simp only [Except.ok.injEq] at h
        subst h
        rfl
  | StorageDepositOp a =>
      simp only [applyOp, Except.ok.injEq] at h
      subst h
      rfl
  | StorageUnregisterOp a force =>
      simp only [applyOp] at h
      split at h
      · simp at h
      · simp only [Except.ok.injEq] at h
        subst h
        rfl

theorem runOps_metadata {c c' : Contract} {ops : List Op} (h : runOps c ops = .ok c') :
    c'.metadata = c.metadata := by
  induction ops generalizing c with
  | nil =>
      simp only [runOps, Except.ok.injEq] at h
      subst h
      rfl
  | cons op rest ih =>
      simp only [runOps] at h
      split at h
      · simp at h
      · rename_i c1 h1
        exact (ih h).trans (applyOp_metadata h1)

/-! ### Success characterizations -/

theorem internal_withdraw_ok {tok tok' : FungibleToken} {a : AccountId} {amount : Nat}
    (h : internal_withdraw tok a amount = .ok tok') :
    ∃ bal, lookupAcc tok.accounts a = some bal ∧ amount ≤ bal ∧
      tok'.accounts = insertAcc tok.accounts a (bal - amount) ∧
      tok'.total_supply = tok.total_supply - amount := by
  unfold internal_withdraw at h
  split at h
  · simp at h
  rename_i bal hl
  split at h
  · simp at h
  rename_i hge
  simp only [Except.ok.injEq] at h
  refine ⟨bal, hl, by omega, ?_, ?_⟩
  · rw [← h]
  · rw [← h]

theorem internal_deposit_ok {tok tok' : FungibleToken} {a : AccountId} {amount : Nat}
    (h : internal_deposit tok a amount = .ok tok') :
    ∃ bal, lookupAcc tok.accounts a = some bal ∧ bal + amount ≤ U128_MAX ∧
      tok.total_supply + amount ≤ U128_MAX ∧
      tok'.accounts = insertAcc tok.accounts a (bal + amount) ∧
      tok'.total_supply = tok.total_supply + amount := by
  unfold internal_deposit at h
  split at h
  · simp at h
  rename_i bal hl
  split at h
  · simp at h
  rename_i hov1
  split at h
  · simp at h
  rename_i hov2
  simp only [Except.ok.injEq] at h
  refine ⟨bal, hl, by omega, by omega, ?_, ?_⟩
  · rw [← h]
  · rw [← h]

theorem ft_transfer_ok {tok tok' : FungibleToken} {s r : AccountId} {amount d : Nat}
    {memo : Option String} {ev : FtEvent}
    (h : ft_transfer tok s r amount d memo = .ok (tok', ev)) :
    d = 1 ∧ amount ≠ 0 ∧ r ≠ s ∧
    ∃ sb rb, lookupAcc tok.accounts s = some sb ∧
      lookupAcc tok.accounts r = some rb ∧ amount ≤ sb ∧
      tok'.accounts = insertAcc (insertAcc tok.accounts s (sb - amount)) r (rb + amount) ∧
      tok'.total_supply = (tok.total_supply - amount) + amount ∧
      ev = .Transfer s r amount memo := by
  unfold ft_transfer at h
  split at h
  · simp at h
  rename_i hd1
  split at h
  · simp at h
  rename_i h0
  split at h
  · simp at h
  rename_i hrs
  split at h
  · simp at h
  rename_i hrn
  split at h
  · simp at h
  rename_i tok1 hw
  split at h
  · simp at h
  rename_i tok2 hdp
  simp only [Except.ok.injEq, Prod.mk.injEq] at h
  obtain ⟨htok, hev⟩ := h
  obtain ⟨sb, hsb, hle, ha1, hsup1⟩ := internal_withdraw_ok hw
  obtain ⟨rb1, hrb1, hov1, hov2, ha2, hsup2⟩ := internal_deposit_ok hdp
  have hrb : lookupAcc tok.accounts r = some rb1 := by
    rw [ha1, lookupAcc_insertAcc_ne _ _ _ _ hrs] at hrb1
    exact hrb1
  refine ⟨by omega, h0, hrs, sb, rb1, hsb, hrb, hle, ?_, ?_, hev.symm⟩
  · rw [← htok, ha2, ha1]
  · rw [← htok, hsup2, hsup1]

/-! ### The claims -/

/-- C4: `new` fails with `AlreadyInitialized` when contract state already
exists, fails with `InvalidMetadata` when metadata validation fails, and
otherwise registers the owner, credits it the full total supply (minting
it) and emits a mint event.  Since any successful run leaves state in
place and existing state forces `AlreadyInitialized`, it can complete
successfully exactly once. -/
theorem new_lifecycle (se : Bool) (owner : AccountId) (ts : Nat)
    (md : FungibleTokenMetadata) :
    (se = true → new se owner ts md = .error .AlreadyInitialized) ∧
    (se = false → md.assert_valid = false → new se owner ts md = .error .InvalidMetadata) ∧
    (se = false → md.assert_valid = true → ts ≤ U128_MAX →
      new se owner ts md =
        .ok (⟨⟨[(owner, ts)], ts⟩, md⟩,
             [.Mint owner ts (some "Initial tokens supply is minted")])) := by
  refine ⟨?_, ?_, ?_⟩
  · intro h
    subst h
    rfl
  · intro hse hmd
    subst hse
    simp [new, hmd]
  · intro hse hmd hts
    subst hse
    have hd : internal_deposit (internal_register_account ⟨[], 0⟩ owner) owner ts
        = .ok ⟨[(owner, ts)], ts⟩ := by
      simp [internal_deposit, internal_register_account, insertAcc, lookupAcc,
        Nat.not_lt.mpr hts]
    simp [new, hmd, hd]

/-- C4 witness: with existing state `new` reports `AlreadyInitialized`;
on a fresh account with a valid record and supply 5 it mints 5 to the
owner and emits the mint event. -/
theorem new_lifecycle_witness :
    new true "owner" 5 mdPlain = .error .AlreadyInitialized ∧
    new false "owner" 5 mdPlain =
      .ok (⟨⟨[("owner", 5)], 5⟩, mdPlain⟩,
           [.Mint "owner" 5 (some "Initial tokens supply is minted")]) :=
  ⟨(new_lifecycle true "owner" 5 mdPlain).1 rfl,
   (new_lifecycle false "owner" 5 mdPlain).2.2 rfl (by decide) (by decide)⟩

/-- C8: the metadata record accepted at initialization is returned
verbatim by `ft_metadata`, both directly after initialization and after
any sequence of fully-succeeding contract operations; no operation
mutates it. -/
theorem metadata_roundtrip (owner : AccountId) (ts : Nat) (md : FungibleTokenMetadata)
    (c0 c : Contract) (evs : List FtEvent) (ops : List Op)
    (hinit : new false owner ts md = .ok (c0, evs))
    (hrun : runOps c0 ops = .ok c) :
    ft_metadata c0 = md ∧ ft_metadata c = md := by
  have h0 : c0.metadata = md := by
    unfold new at hinit
    split at hinit
    · simp at hinit
    split at hinit
    · simp at hinit
    split at hinit
    · simp at hinit
    · simp only [Except.ok.injEq, Prod.mk.injEq] at hinit
      obtain ⟨hc, hev⟩ := hinit
      rw [← hc]
  exact ⟨h0, (runOps_metadata hrun).trans h0⟩

/-- C8 witness: metadata round-trips on a concrete initialization
followed by a registration and a transfer. -/
theorem metadata_roundtrip_witness :
    ft_metadata ⟨⟨[("owner", 5)], 5⟩, mdPlain⟩ = mdPlain ∧
    ft_metadata ⟨⟨[("owner", 3), ("bob", 2)], 5⟩, mdPlain⟩ = mdPlain :=
  metadata_roundtrip "owner" 5 mdPlain
    ⟨⟨[("owner", 5)], 5⟩, mdPlain⟩
    ⟨⟨[("owner", 3), ("bob", 2)], 5⟩, mdPlain⟩
    [.Mint "owner" 5 (some "Initial tokens supply is minted")]
    [.StorageDepositOp "bob", .TransferOp "owner" "bob" 2 1 none]
    (by rfl) (by rfl)

/-- C9: `new_default_meta` equals `new` applied to the fixed default
metadata record with spec string `FT_METADATA_SPEC`, name
`NEAR Hub Estates`, symbol `ESTATES`, 24 decimals, the embedded SVG data
URI as icon and no reference or reference hash; that record passes
metadata validation. -/
theorem new_default_meta_refines (se : Bool) (owner : AccountId) (ts : Nat) :
    new_default_meta se owner ts = new se owner ts defaultMetadata ∧
    defaultMetadata =
      ⟨FT_METADATA_SPEC, "NEAR Hub Estates", "ESTATES",
       some DATA_IMAGE_SVG_NEAR_ICON, none, none, 24⟩ ∧
    defaultMetadata.assert_valid = true := by
  refine ⟨rfl, rfl, ?_⟩
  simp [FungibleTokenMetadata.assert_valid, defaultMetadata]

/-- C10: a contract account on which initialization never ran has no
usable state: loading it runs the panicking default constructor, so a
method call reports `The contract is not initialized` and never answers
from an empty ledger. -/
theorem default_not_usable :
    (∀ a, ft_balance_of_call none a = .error "The contract is not initialized") ∧
    (∀ c : Contract, Contract.default ≠ .ok c) ∧
    (∀ a n, ft_balance_of_call none a ≠ .ok n) := by
  refine ⟨fun a => rfl, ?_, ?_⟩
  · intro c h
    simp [Contract.default] at h
  · intro a n h
    simp [ft_balance_of_call, loadContract, Contract.default, Except.map] at h

/-- C5: each precondition of `ft_transfer`, each violated in isolation: a
missing 1-unit attached payment gives `DepositRequired`; amount 0 gives
`ZeroAmount`; a receiver equal to the caller gives `SelfTransfer`; an
unregistered receiver gives `AccountNotRegistered`; a caller balance
below the amount gives `InsufficientBalance` from the withdraw step. -/
theorem ft_transfer_preconditions (tok : FungibleToken) (s r : AccountId)
    (amount d sb : Nat) (memo : Option String) :
    (d ≠ 1 → ft_transfer tok s r amount d memo = .error .DepositRequired) ∧
    (amount = 0 → ft_transfer tok s r amount 1 memo = .error .ZeroAmount) ∧
    (r = s → amount ≠ 0 → ft_transfer tok s r amount 1 memo = .error .SelfTransfer) ∧
    (lookupAcc tok.accounts r = none → amount ≠ 0 → r ≠ s →
      ft_transfer tok s r amount 1 memo = .error .AccountNotRegistered) ∧
    (lookupAcc tok.accounts s = some sb → sb < amount → r ≠ s →
      (lookupAcc tok.accounts r).isSome = true →
      ft_transfer tok s r amount 1 memo = .error .InsufficientBalance) := by
  refine ⟨?_, ?_, ?_, ?_, ?_⟩
  · intro hd
    simp [ft_transfer, hd]
  · intro h0
    simp [ft_transfer, h0]
  · intro hrs h0
    simp [ft_transfer, hrs, h0]
  · intro hr h0 hrs
    simp [ft_transfer, hr, h0, hrs]
  · intro hs hlt hrs hr
    have h0 : amount ≠ 0 := by omega
    have hrn : (lookupAcc tok.accounts r).isNone = false := by
      cases hlk : lookupAcc tok.accounts r with
      | none => rw [hlk] at hr; simp at hr
      | some v => simp
    simp [ft_transfer, internal_withdraw, hs, hlt, h0, hrs, hrn]

/-- C5 witness: on the ledger `owner ↦ 3, bob ↦ 2` each violated
precondition produces its error. -/
theorem ft_transfer_preconditions_witness :
    ft_transfer ⟨[("owner", 3), ("bob", 2)], 5⟩ "owner" "bob" 2 0 none
        = .error .DepositRequired ∧
    ft_transfer ⟨[("owner", 3), ("bob", 2)], 5⟩ "owner" "bob" 0 1 none
        = .error .ZeroAmount ∧
    ft_transfer ⟨[("owner", 3), ("bob", 2)], 5⟩ "owner" "owner" 2 1 none
        = .error .SelfTransfer ∧
    ft_transfer ⟨[("owner", 3), ("bob", 2)], 5⟩ "owner" "carol" 2 1 none
        = .error .AccountNotRegistered ∧
    ft_transfer ⟨[("owner", 3), ("bob", 2)], 5⟩ "owner" "bob" 4 1 none
        = .error .InsufficientBalance :=
  ⟨(ft_transfer_preconditions ⟨[("owner", 3), ("bob", 2)], 5⟩ "owner" "bob"
      2 0 0 none).1 (by decide),
   (ft_transfer_preconditions ⟨[("owner", 3), ("bob", 2)], 5⟩ "owner" "bob"
      0 1 0 none).2.1 rfl,
   (ft_transfer_preconditions ⟨[("owner", 3), ("bob", 2)], 5⟩ "owner" "owner"
      2 1 0 none).2.2.1 rfl (by decide),
   (ft_transfer_preconditions ⟨[("owner", 3), ("bob", 2)], 5⟩ "owner" "carol"
      2 1 0 none).2.2.2.1 (by decide) (by decide) (by decide),
   (ft_transfer_preconditions ⟨[("owner", 3), ("bob", 2)], 5⟩ "owner" "bob"
      4 1 3 none).2.2.2.2 (by decide) (by decide) (by decide) (by decide)⟩

/-- C7: `storage_unregister` fails with `StillHasBalance` when `force` is
unset and the caller's balance is nonzero; otherwise it removes the
caller's record (leaving every other account untouched and the caller
unregistered), burns the remaining balance out of the total supply,
fires the on-close notification hook and refunds the storage deposit. -/
theorem storage_unregister_correct (tok : FungibleToken) (caller : AccountId)
    (balance : Nat) (force : Bool)
    (hnd : NodupKeys tok.accounts)
    (hb : lookupAcc tok.accounts caller = some balance) :
    (balance ≠ 0 → force = false →
      storage_unregister tok caller force = .error .StillHasBalance) ∧
    (balance = 0 ∨ force = true →
      storage_unregister tok caller force =
        .ok ⟨⟨removeAcc tok.accounts caller, tok.total_supply - balance⟩, true,
             [.AccountClosed caller balance], true⟩ ∧
      lookupAcc (removeAcc tok.accounts caller) caller = none ∧
      (∀ x, x ≠ caller → lookupAcc (removeAcc tok.accounts caller) x
          = lookupAcc tok.accounts x)) := by
  refine ⟨?_, ?_⟩
  · intro hbz hf
    subst hf
    simp [storage_unregister, hb, hbz]
  · intro hcond
    refine ⟨?_, lookupAcc_removeAcc_self _ _ hnd,
      fun x hx => lookupAcc_removeAcc_ne _ _ _ hx⟩
    rcases hcond with hz | hf
    · simp [storage_unregister, hb, hz]
    · subst hf
      simp [storage_unregister, hb]

/-- C7 witness: on the ledger `owner ↦ 3, bob ↦ 2`, bob unregistering
without force fails with `StillHasBalance`; with force the record is
removed, 2 tokens are burned from the supply, the hook fires and the
deposit is refunded. -/
theorem storage_unregister_witness :
    storage_unregister ⟨[("owner", 3), ("bob", 2)], 5⟩ "bob" false
        = .error .StillHasBalance ∧
    storage_unregister ⟨[("owner", 3), ("bob", 2)], 5⟩ "bob" true
        = .ok ⟨⟨[("owner", 3)], 3⟩, true, [.AccountClosed "bob" 2], true⟩ :=
  ⟨(storage_unregister_correct ⟨[("owner", 3), ("bob", 2)], 5⟩ "bob" 2 false
      (by unfold NodupKeys; decide) (by decide)).1 (by decide) rfl,
   ((storage_unregister_correct ⟨[("owner", 3), ("bob", 2)], 5⟩ "bob" 2 true
      (by unfold NodupKeys; decide) (by decide)).2 (Or.inr rfl)).1⟩

/-- C3: a successful `ft_transfer` moves exactly `amount`: sender
balance −amount, receiver balance +amount, every other balance and the
total supply unchanged (in the embedding a failing call returns `.error`
and no state, mirroring the platform rollback); a transfer to an
unregistered receiver never succeeds; in the concrete scenario,
initializing with supply 1_000_000_000_000_000, registering a receiver
and transferring 333_333_333_333_333 with a 1-unit payment leaves the
owner with 666_666_666_666_667 and the receiver with the transferred
amount. -/
theorem ft_transfer_atomicity (tok tok' : FungibleToken) (s r : AccountId)
    (amount sb rb : Nat) (memo : Option String) (ev : FtEvent)
    (hcons : sumBalances tok.accounts = tok.total_supply)
    (hs : lookupAcc tok.accounts s = some sb)
    (hr : lookupAcc tok.accounts r = some rb)
    (h : ft_transfer tok s r amount 1 memo = .ok (tok', ev)) :
    amount ≤ sb ∧
    lookupAcc tok'.accounts s = some (sb - amount) ∧
    lookupAcc tok'.accounts r = some (rb + amount) ∧
    (∀ x, x ≠ s → x ≠ r → lookupAcc tok'.accounts x = lookupAcc tok.accounts x) ∧
    tok'.total_supply = tok.total_supply ∧
    (∀ (tok2 : FungibleToken) (s2 r2 : AccountId) (amount2 d2 : Nat)
        (memo2 : Option String) (p : FungibleToken × FtEvent),
      lookupAcc tok2.accounts r2 = none →
      ft_transfer tok2 s2 r2 amount2 d2 memo2 ≠ .ok p) ∧
    new false "owner" 1000000000000000 mdPlain =
      .ok (⟨⟨[("owner", 1000000000000000)], 1000000000000000⟩, mdPlain⟩,
           [.Mint "owner" 1000000000000000 (some "Initial tokens supply is minted")]) ∧
    runOps ⟨⟨[("owner", 1000000000000000)], 1000000000000000⟩, mdPlain⟩
        [.StorageDepositOp "receiver",
         .TransferOp "owner" "receiver" 333333333333333 1 none] =
      .ok ⟨⟨[("owner", 666666666666667), ("receiver", 333333333333333)],
            1000000000000000⟩, mdPlain⟩ := by
  obtain ⟨hd1, h0, hrs, sb', rb', hsb', hrb', hle, ha, hsup, hev⟩ := ft_transfer_ok h
  rw [hs] at hsb'
  injection hsb' with hsb'
  subst hsb'
  rw [hr] at hrb'
  injection hrb' with hrb'
  subst hrb'
  have hsr : s ≠ r := fun he => hrs he.symm
  refine ⟨hle, ?_, ?_, ?_, ?_, ?_, by rfl, by rfl⟩
  · rw [ha, lookupAcc_insertAcc_ne _ _ _ _ hsr, lookupAcc_insertAcc_self]
  · rw [ha, lookupAcc_insertAcc_self]
  · intro x hxs hxr
    rw [ha, lookupAcc_insertAcc_ne _ _ _ _ hxr, lookupAcc_insertAcc_ne _ _ _ _ hxs]
  · have hble := lookupAcc_le_sumBalances tok.accounts s sb hs
    omega
  · intro tok2 s2 r2 amount2 d2 memo2 p hnone hok
    obtain ⟨_, _, _, _, rb2, _, hrb2, _⟩ := ft_transfer_ok hok
    rw [hnone] at hrb2
    exact Option.noConfusion hrb2

/-- C3 witness: a concrete successful transfer of 2 from `owner` (3) to
`bob` (2) on supply 5 satisfies all the atomicity conclusions. -/
theorem ft_transfer_atomicity_witness :
    2 ≤ 3 ∧
    lookupAcc [("owner", 1), ("bob", 4)] "owner" = some (3 - 2) ∧
    lookupAcc [("owner", 1), ("bob", 4)] "bob" = some (2 + 2) ∧
    (∀ x, x ≠ "owner" → x ≠ "bob" →
      lookupAcc [("owner", 1), ("bob", 4)] x
        = lookupAcc [("owner", 3), ("bob", 2)] x) ∧
    (5 : Nat) = 5 ∧
    (∀ (tok2 : FungibleToken) (s2 r2 : AccountId) (amount2 d2 : Nat)
        (memo2 : Option String) (p : FungibleToken × FtEvent),
      lookupAcc tok2.accounts r2 = none →
      ft_transfer tok2 s2 r2 amount2 d2 memo2 ≠ .ok p) ∧
    new false "owner" 1000000000000000 mdPlain =
      .ok (⟨⟨[("owner", 1000000000000000)], 1000000000000000⟩, mdPlain⟩,
           [.Mint "owner" 1000000000000000 (some "Initial tokens supply is minted")]) ∧
    runOps ⟨⟨[("owner", 1000000000000000)], 1000000000000000⟩, mdPlain⟩
        [.StorageDepositOp "receiver",
         .TransferOp "owner" "receiver" 333333333333333 1 none] =
      .ok ⟨⟨[("owner", 666666666666667), ("receiver", 333333333333333)],
            1000000000000000⟩, mdPlain⟩ :=
  ft_transfer_atomicity ⟨[("owner", 3), ("bob", 2)], 5⟩ ⟨[("owner", 1), ("bob", 4)], 5⟩
    "owner" "bob" 2 3 2 none (.Transfer "owner" "bob" 2 none)
    (by decide) (by decide) (by decide) (by rfl)

theorem ft_resolve_transfer_effect (tok : FungibleToken) (s r : AccountId)
    (amount : Nat) (outcome : NotifyOutcome) (sb rb : Nat)
    (hne : s ≠ r)
    (hs : lookupAcc tok.accounts s = some sb)
    (hr : lookupAcc tok.accounts r = some rb) :
    lookupAcc (ft_resolve_transfer tok s r amount outcome).1.accounts s
      = some (sb + min rb (resolveUnused amount outcome)) ∧
    lookupAcc (ft_resolve_transfer tok s r amount outcome).1.accounts r
      = some (rb - min rb (resolveUnused amount outcome)) ∧
    (ft_resolve_transfer tok s r amount outcome).2.1
      = amount - min rb (resolveUnused amount outcome) ∧
    (ft_resolve_transfer tok s r amount outcome).1.total_supply = tok.total_supply := by
  have hrs : r ≠ s := fun he => hne he.symm
  simp only [ft_resolve_transfer, hr, Option.getD_some]
  split
  · rename_i hu
    rw [hu]
    simp [hs, hr]
  · rename_i hu
    split
    · rename_i hrb
      simp [hs, hr, hrb]
    · rename_i hrb
      split
      · rename_i sb1 hs1
        have hs1' : sb1 = sb := by
          rw [lookupAcc_insertAcc_ne _ _ _ _ hne, hs] at hs1
          injection hs1 with h'
          exact h'.symm
        subst hs1'
        refine ⟨?_, ?_, rfl, rfl⟩
        · rw [lookupAcc_insertAcc_self]
        · rw [lookupAcc_insertAcc_ne _ _ _ _ hrs, lookupAcc_insertAcc_self]
      · rename_i hs1
        rw [lookupAcc_insertAcc_ne _ _ _ _ hne, hs] at hs1
        exact Option.noConfusion hs1

/-- C2: resolution of a transfer-and-notify call: when the receiver's
notification call reports an unused amount, the amount refunded to the
sender is that value clamped to at most the original `amount` and at most
the receiver's balance at resolution time; when the call fails outright
the full amount is reverted (sender +amount, receiver −amount, restoring
the pre-transfer balances) and the result is 0; in every case the call
returns `amount` minus the unused amount actually recovered, and a refund
moves no total supply. -/
theorem ft_resolve_transfer_correct (tok : FungibleToken) (s r : AccountId)
    (amount u sb rb : Nat)
    (hne : s ≠ r)
    (hs : lookupAcc tok.accounts s = some sb)
    (hr : lookupAcc tok.accounts r = some rb) :
    (lookupAcc (ft_resolve_transfer tok s r amount (.Returned u)).1.accounts s
        = some (sb + min (min amount u) rb) ∧
     lookupAcc (ft_resolve_transfer tok s r amount (.Returned u)).1.accounts r
        = some (rb - min (min amount u) rb) ∧
     (ft_resolve_transfer tok s r amount (.Returned u)).2.1
        = amount - min (min amount u) rb ∧
     (ft_resolve_transfer tok s r amount (.Returned u)).1.total_supply
        = tok.total_supply) ∧
    (amount ≤ rb →
     lookupAcc (ft_resolve_transfer tok s r amount .Failed).1.accounts s
        = some (sb + amount) ∧
     lookupAcc (ft_resolve_transfer tok s r amount .Failed).1.accounts r
        = some (rb - amount) ∧
     (ft_resolve_transfer tok s r amount .Failed).2.1 = 0) := by
  constructor
  · have heff := ft_resolve_transfer_effect tok s r amount (.Returned u) sb rb hne hs hr
    have hmin : min rb (resolveUnused amount (.Returned u)) = min (min amount u) rb := by
      simp [resolveUnused, Nat.min_comm]
    rw [hmin] at heff
    exact heff
  · intro hle
    have heff := ft_resolve_transfer_effect tok s r amount .Failed sb rb hne hs hr
    have hmin : min rb (resolveUnused amount .Failed) = amount := by
      simp [resolveUnused]
      omega
    rw [hmin] at heff
    exact ⟨heff.1, heff.2.1, by omega⟩

/-- C2 witness: on the ledger `alice ↦ 1, bob ↦ 4` (after an optimistic
transfer of 4), a reported unused amount of 3 refunds 3, and an outright
failure of a 4-token notify refunds all 4 with result 0. -/
theorem ft_resolve_transfer_correct_witness :
    (lookupAcc (ft_resolve_transfer ⟨[("alice", 1), ("bob", 4)], 5⟩
        "alice" "bob" 4 (.Returned 3)).1.accounts "alice"
      = some (1 + min (min 4 3) 4) ∧
     lookupAcc (ft_resolve_transfer ⟨[("alice", 1), ("bob", 4)], 5⟩
        "alice" "bob" 4 (.Returned 3)).1.accounts "bob"
      = some (4 - min (min 4 3) 4) ∧
     (ft_resolve_transfer ⟨[("alice", 1), ("bob", 4)], 5⟩
        "alice" "bob" 4 (.Returned 3)).2.1 = 4 - min (min 4 3) 4 ∧
     (ft_resolve_transfer ⟨[("alice", 1), ("bob", 4)], 5⟩
        "alice" "bob" 4 (.Returned 3)).1.total_supply = 5) ∧
    (4 ≤ 4 →
     lookupAcc (ft_resolve_transfer ⟨[("alice", 1), ("bob", 4)], 5⟩
        "alice" "bob" 4 .Failed).1.accounts "alice" = some (1 + 4) ∧
     lookupAcc (ft_resolve_transfer ⟨[("alice", 1), ("bob", 4)], 5⟩
        "alice" "bob" 4 .Failed).1.accounts "bob" = some (4 - 4) ∧
     (ft_resolve_transfer ⟨[("alice", 1), ("bob", 4)], 5⟩
        "alice" "bob" 4 .Failed).2.1 = 0) :=
  ft_resolve_transfer_correct ⟨[("alice", 1), ("bob", 4)], 5⟩ "alice" "bob"
    4 3 1 4 (by decide) (by decide) (by decide)

/-- C1: conservation of supply — starting from an initialized contract,
after every sequence of fully-succeeding operations (`ft_transfer`,
`ft_transfer_call` with its resolution as the combined `TransferCallOp`
step, and the storage operations) the sum of all account balances equals
the stored total supply.  The transient imbalance of an in-flight
transfer-and-notify lives inside the combined step, so the invariant
holds at every operation boundary. -/
theorem conservation_of_supply (owner : AccountId) (ts : Nat)
    (md : FungibleTokenMetadata) (c0 c : Contract) (evs : List FtEvent) (ops : List Op)
    (hinit : new false owner ts md = .ok (c0, evs))
    (hrun : runOps c0 ops = .ok c) :
    sumBalances c.token.accounts = c.token.total_supply :=
  (wf_runOps hrun (wf_new hinit)).2.1

/-- C1 witness: a run containing a registration, a plain transfer, a
transfer-and-notify with partial refund, and a forced unregistration
(burn) still sums to the stored supply. -/
theorem conservation_of_supply_witness :
    sumBalances [("owner", 666666666666607)] = 666666666666607 :=
  conservation_of_supply "owner" 1000000000000000 mdPlain
    ⟨⟨[("owner", 1000000000000000)], 1000000000000000⟩, mdPlain⟩
    ⟨⟨[("owner", 666666666666607)], 666666666666607⟩, mdPlain⟩
    [.Mint "owner" 1000000000000000 (some "Initial tokens supply is minted")]
    [.StorageDepositOp "receiver",
     .TransferOp "owner" "receiver" 333333333333333 1 none,
     .TransferCallOp "owner" "receiver" 100 1 none (.Returned 40),
     .StorageUnregisterOp "receiver" true]
    (by rfl) (by rfl)

/-- C6: balance bounds — in the unsigned embedding every balance is a
`Nat`, so `0 ≤ balance` holds by typing and no operation can produce a
negative balance; starting from an initialized contract every balance
stays at most `2^128 - 1`; and a deposit that would push the balance or
the total supply past `2^128 - 1` fails with `Overflow`, returning no
state (the platform rolls the call back). -/
theorem balance_bounds (owner : AccountId) (ts : Nat)
    (md : FungibleTokenMetadata) (c0 c : Contract) (evs : List FtEvent) (ops : List Op)
    (hinit : new false owner ts md = .ok (c0, evs))
    (hrun : runOps c0 ops = .ok c) :
    (∀ a b, lookupAcc c.token.accounts a = some b → b ≤ U128_MAX) ∧
    (∀ (tok : FungibleToken) (a : AccountId) (amount bal : Nat),
      lookupAcc tok.accounts a = some bal →
      U128_MAX < bal + amount ∨ U128_MAX < tok.total_supply + amount →
      internal_deposit tok a amount = .error .Overflow) := by
  constructor
  · intro a b hb
    obtain ⟨hnd, hsum, hbound⟩ := wf_runOps hrun (wf_new hinit)
    have := lookupAcc_le_sumBalances c.token.accounts a b hb
    omega
  · intro tok a amount bal hb hov
    unfold internal_deposit
    rw [hb]
    show (if bal + amount > U128_MAX then (.error .Overflow : Except FTError FungibleToken)
      else if tok.total_supply + amount > U128_MAX then .error .Overflow
      else .ok ⟨insertAcc tok.accounts a (bal + amount), tok.total_supply + amount⟩)
      = .error .Overflow
    by_cases h1 : bal + amount > U128_MAX
    · rw [if_pos h1]
    · rw [if_neg h1, if_pos (by omega)]

/-- C6 witness: after a concrete run the owner's balance of 5 is within
the `u128` bound, and depositing `2^128 - 1` more tokens on a balance of
3 reports `Overflow`. -/
theorem balance_bounds_witness :
    (5 : Nat) ≤ U128_MAX ∧
    internal_deposit ⟨[("owner", 3)], 3⟩ "owner" U128_MAX = .error .Overflow :=
  ⟨(balance_bounds "owner" 5 mdPlain ⟨⟨[("owner", 5)], 5⟩, mdPlain⟩
      ⟨⟨[("owner", 5)], 5⟩, mdPlain⟩
      [.Mint "owner" 5 (some "Initial tokens supply is minted")] []
      (by rfl) (by rfl)).1 "owner" 5 (by decide),
   (balance_bounds "owner" 5 mdPlain ⟨⟨[("owner", 5)], 5⟩, mdPlain⟩
      ⟨⟨[("owner", 5)], 5⟩, mdPlain⟩
      [.Mint "owner" 5 (some "Initial tokens supply is minted")] []
      (by rfl) (by rfl)).2 ⟨[("owner", 3)], 3⟩ "owner" U128_MAX 3 (by decide)
      (Or.inl (Nat.lt_add_of_pos_left (by decide)))⟩

end EstateHub
